import Mathlib

/-!
Shallow embedding of the siderolabs/omni-infra-provider-libvirt core
(`internal/pkg/provider`): the provisioning step pipeline
(`provision.go`), the volume broker (`volumes.go`), the image cache
(`images.go`) and the deprovisioning automaton, together with proofs of
the behavioural properties claimed for them.

Machine integers are modelled as `Nat` (all the arithmetic involved —
disk sizes, slot counters — stays far below any overflow boundary and
only ever moves upward), Go `error` results as `Except`/`Option`, and
calls against the libvirt hypervisor as explicit environment records
plus an emitted trace of mutation operations.
-/

namespace LibvirtProvider

/-! ## Small string helpers (Go `strings.Contains`) -/

/-- Go `strings.Contains`, on the underlying character lists: does `needle`
occur as a contiguous run inside `hay`? -/
def charsContain (hay needle : List Char) : Bool :=
  match hay with
  | [] => needle.isEmpty
  | _ :: t => needle.isPrefixOf hay || charsContain t needle

/-- Go `strings.Contains hay needle`. -/
def stringContains (hay needle : String) : Bool :=
  charsContain hay.data needle.data

/-! ## Disk slot assignment (`createVM` step, provision.go) -/

/-- One additional disk as recorded in the machine state
(`specs.AdditionalDisk`): its type string and its volume name. -/
structure AdditionalDisk where
  type    : String
  volName : String
deriving DecidableEq, Repr

/-- The Go loop of the `"sata"` case in `createVM`:

```
idx := sataDiskCount
s := ""
for idx >= 0 {
    s = fmt.Sprint(rune('a'+(idx%26))) + s
    idx = idx/26 - 1
}
```

In Go, `idx` starts at `sataDiskCount ≥ 0` and the loop exits exactly
when `idx/26 - 1`, computed in `int`, drops below zero, i.e. when the
current `idx` is below 26; until then every value taken by `idx` is
non-negative, so the `int` arithmetic coincides with `Nat` arithmetic
and the loop is the recursion below. -/
def sataSlotAux (idx : Nat) (s : String) : String :=
  let s' := String.singleton (Char.ofNat (97 + idx % 26)) ++ s
  if h : 26 ≤ idx then sataSlotAux (idx / 26 - 1) s'
  else s'
termination_by idx
decreasing_by
  have h26 : idx / 26 < idx := Nat.div_lt_self (by omega) (by omega)
  omega

/-- Device-slot suffix produced for the sata disk whose running counter
value is `idx` (`dev = fmt.Sprintf("sd%s", s)`). -/
def sataSlot (idx : Nat) : String := "sd" ++ sataSlotAux idx ""

/-- The additional-disk loop of `createVM`: threading the running
counters (`sataDiskCount`, `nvmeDiskCount`) through the list of
additional disks recorded in the machine state, producing the
`(dev, bus)` target pair of each, or the `unknown disk type` error. -/
def assignDiskSlots (sata nvme : Nat) : List AdditionalDisk → Except String (List (String × String))
  | [] => .ok []
  | d :: rest =>
    if d.type = "nvme" then
      (assignDiskSlots sata (nvme + 1) rest).map
        (fun l => ("nvme" ++ toString nvme ++ "n1", "nvme") :: l)
    else if d.type = "sata" then
      (assignDiskSlots (sata + 1) nvme rest).map
        (fun l => (sataSlot sata, "virtio") :: l)
    else
      .error ("unknown disk type: " ++ d.type)

/-- The full disk-target list assembled by `createVM`: the primary disk
reserves `("vda", "virtio")`, and the additional-disk loop starts with
`sataDiskCount = 1` ("account for root disk") and `nvmeDiskCount = 0`. -/
def createVMDiskTargets (disks : List AdditionalDisk) : Except String (List (String × String)) :=
  (assignDiskSlots 1 0 disks).map (fun l => ("vda", "virtio") :: l)


/-! ## Step outcomes and hypervisor operations

A Go step handler returns `error`; the distinguished values produced by
`provision.NewRetryInterval` / `NewRetryError(f)` are modelled as their
own constructors, a plain non-nil error as `err`, and `nil` as `ok`. -/

/-- Result of one pipeline / deprovision invocation. -/
inductive StepOutcome where
  | ok
  | retryInterval (seconds : Nat)
  | retryError (seconds : Nat) (msg : String)
  | err (msg : String)
deriving DecidableEq, Repr

/-- Returns `true` exactly on the retry outcomes (`NewRetryInterval`,
`NewRetryError(f)`). -/
def StepOutcome.isRetry : StepOutcome → Bool
  | .retryInterval _ => true
  | .retryError _ _ => true
  | _ => false

/-- Calls issued against the libvirt hypervisor, as recorded in an
execution trace.  `volLookup` is the read performed by `getVol`; all the
other constructors are mutations. -/
inductive HvOp where
  | volLookup (name : String)
  | volCreate (pool name : String) (capacity : Nat)
  | volUpload (name : String)
  | volResize (name : String) (size : Nat)
  | volDelete (name : String)
  | domDefine (name : String)
  | domStart (name : String)
  | domDestroy (name : String)
  | domUndefine (name : String)
deriving DecidableEq, Repr

/-- Volume operations (lookups and mutations on storage volumes). -/
def HvOp.isVolOp : HvOp → Bool
  | .volLookup _ => true
  | .volCreate _ _ _ => true
  | .volUpload _ => true
  | .volResize _ _ => true
  | .volDelete _ => true
  | _ => false

/-- Hypervisor mutations (everything except the `getVol` read). -/
def HvOp.isMutation : HvOp → Bool
  | .volLookup _ => false
  | _ => true

/-! ## Volume broker (`volumes.go`) -/

/-- Result of a single libvirt lookup call
(`StoragePoolLookupByName`, `StorageVolLookupByName`,
`DomainLookupByName`): the object was found, or the call failed with an
error whose message is `m`. -/
inductive LookupRes where
  | found
  | errMsg (m : String)
deriving DecidableEq, Repr

/-- Result of `getVol`: a volume handle, the distinguished
`errVolNoExist`, or some other error. -/
inductive VolRes where
  | handle
  | volNoExist
  | err (m : String)
deriving DecidableEq, Repr

/-- Function `getVol` (volumes.go): look up the pool, then the volume; a volume
lookup failure whose message contains `"Storage volume not found"` is
mapped to the distinguished `errVolNoExist`, every other failure is
returned as is (the pool failure wrapped with `"getvol: "`). -/
def getVol (poolRes volRes : LookupRes) : VolRes :=
  match poolRes with
  | .errMsg m => .err ("getvol: " ++ m)
  | .found =>
    match volRes with
    | .found => .handle
    | .errMsg m =>
      if stringContains m "Storage volume not found" then .volNoExist
      else .err m

/-- Hypervisor responses consumed by one `createVolume` call: the two
lookups of its initial `getVol` probe, the pool lookup on the create
path, and the outcome of `StorageVolCreateXML`. -/
structure VolCreateEnv where
  getPoolRes : LookupRes
  getVolRes  : LookupRes
  poolRes2   : LookupRes
  createOk   : Bool
deriving DecidableEq, Repr

/-- Function `createVolume` (volumes.go): get-or-create.  If the initial `getVol`
succeeds the existing volume is returned unchanged; on ANY `getVol`
error (also a pool-lookup failure) it proceeds to look up the pool and
create a thin-provisioned volume of the given byte `capacity`
(the XML rendering step cannot fail for these inputs and is omitted). -/
def createVolume (env : VolCreateEnv) (pool name : String) (capacity : Nat) :
    Except String Unit × List HvOp :=
  match getVol env.getPoolRes env.getVolRes with
  | .handle => (.ok (), [.volLookup name])
  | _ =>
    match env.poolRes2 with
    | .errMsg m => (.error ("error creating volume: " ++ m), [.volLookup name])
    | .found =>
      if env.createOk then (.ok (), [.volLookup name, .volCreate pool name capacity])
      else (.error "error creating volume", [.volLookup name, .volCreate pool name capacity])

/-! ## Machine request data and persisted machine state -/

/-- Struct `Data` (data.go): the provider custom machine config.  `DiskSize` is
documented as a GB count. -/
structure Data where
  cores       : Nat := 0
  memory      : Nat := 0
  diskSize    : Nat := 0
  storagePool : String := ""
deriving DecidableEq, Repr

/-- Struct `specs.MachineSpec` as used by the provider (resources/machine.go):
the persisted machine state, one field per completed step. -/
structure MachineState where
  uuid            : String := ""
  schematicId     : String := ""
  poolName        : String := ""
  vmVolName       : String := ""
  additionalDisks : List AdditionalDisk := []
  cidataVolName   : String := ""
  vmName          : String := ""
deriving DecidableEq, Repr

/-- Constant `GiB` (provision.go). -/
def GiB : Nat := 1024 * 1024 * 1024

/-! ## `provisionPrimaryDisk` step (provision.go) -/

/-- External outcomes consumed by one run of `provisionPrimaryDisk`:
provider-data unmarshalling, the image-cache `Acquire`, the
`createVolume` call, local file open / gzip reader, and the
`StorageVolUpload` / `StorageVolResize` calls. -/
structure PrimaryDiskEnv where
  dataOk    : Bool
  acquireOk : Bool
  createVol : VolCreateEnv
  openOk    : Bool
  gzipOk    : Bool
  uploadOk  : Bool
  resizeOk  : Bool
deriving DecidableEq, Repr

/-- The `provisionPrimaryDisk` step handler.  Returns the outcome, the
updated machine state and the trace of hypervisor calls.  The image
cache `Acquire`/`Release` bookkeeping is modelled separately (see
`acquire`/`release` below); here only its success/failure is consumed.
Note the handler derives the volume name from the request id and sets
`PoolName` before creating the volume, and calls `createVolume` with
`data.DiskSize` (the raw GB count) as the byte capacity while the
resize uses `data.DiskSize * GiB` bytes. -/
def provisionPrimaryDisk (env : PrimaryDiskEnv) (data : Data) (requestId : String)
    (st : MachineState) : StepOutcome × MachineState × List HvOp :=
  if ¬ env.dataOk then (.err "unmarshal provider data", st, [])
  else if ¬ env.acquireOk then (.retryError 10 "error fetching image", st, [])
  else
    let volName := requestId ++ ".qcow2"
    let st := { st with poolName := data.storagePool }
    match createVolume env.createVol data.storagePool volName data.diskSize with
    | (.error m, tr) => (.err ("error creating disk: " ++ m), st, tr)
    | (.ok _, tr) =>
      if ¬ env.openOk then (.err "error opening local disk image", st, tr)
      else if ¬ env.gzipOk then (.err "error opening gzip image reader", st, tr)
      else
        let tr := tr ++ [.volUpload volName]
        if ¬ env.uploadOk then (.err "error uploading image", st, tr)
        else
          let tr := tr ++ [.volResize volName (data.diskSize * GiB)]
          if ¬ env.resizeOk then
            (.err ("expanding volume " ++ volName ++ " failed"), st, tr)
          else (.ok, { st with vmVolName := volName }, tr)

/-! ## `startVM` step (provision.go) -/

/-- libvirt domain state codes (go-libvirt `DomainRunning`,
`DomainShutdown`, `DomainShutoff`). -/
def domainRunning : Nat := 1

/-- libvirt `VIR_DOMAIN_SHUTDOWN`: the domain is being shut down. -/
def domainShuttingDown : Nat := 4

/-- libvirt `VIR_DOMAIN_SHUTOFF`: the domain is fully stopped. -/
def domainShutoff : Nat := 5

/-- External outcomes consumed by one run of `startVM`:
`DomainLookupByName`, `DomainGetState`, the observed state code, and
the `DomainCreate` result (`none` = started). -/
structure StartVMEnv where
  lookupOk   : Bool
  getStateOk : Bool
  domState   : Nat
  startErr   : Option String
deriving DecidableEq, Repr

/-- The `startVM` step handler: look the domain up by the persisted
name, fetch its state, no-op if already running; otherwise start it,
treating a `"domain is already running"` failure as success. -/
def startVM (env : StartVMEnv) (st : MachineState) :
    StepOutcome × MachineState × List HvOp :=
  if ¬ env.lookupOk then (.retryError 10 "VM lookup failed", st, [])
  else if ¬ env.getStateOk then (.retryError 10 "error fetching domain state", st, [])
  else if env.domState = domainRunning then (.ok, st, [])
  else
    match env.startErr with
    | none => (.ok, st, [.domStart st.vmName])
    | some m =>
      if stringContains m "domain is already running" then (.ok, st, [.domStart st.vmName])
      else (.retryError 10 "failed to start VM", st, [.domStart st.vmName])

/-! ## Image cache (`images.go`)

`ImageCache.refs` is a Go `map[string]int`: reading an absent key
yields 0, `delete` removes the key.  It is modelled as
`String → Option Int` with `none` for an absent key, reads going
through `refsGet`.  Times are `Int` (nanoseconds since some epoch);
`time.Sub` is plain subtraction. -/

/-- Read of a Go `map[string]int`: an absent key reads as 0. -/
def refsGet (r : String → Option Int) (k : String) : Int := (r k).getD 0

/-- Go `c.refs[key]++`. -/
def refsIncr (r : String → Option Int) (k : String) : String → Option Int :=
  fun k' => if k' = k then some (refsGet r k + 1) else r k'

/-- Go decrement-then-delete: `c.refs[key]--` followed by deletion of
the key when the count is `<= 0` —
the decrement-then-delete pattern shared by `Acquire`'s error path and
by `Release`. -/
def refsDecrDel (r : String → Option Int) (k : String) : String → Option Int :=
  fun k' =>
    if k' = k then
      if refsGet r k - 1 ≤ 0 then none else some (refsGet r k - 1)
    else r k'

/-- The mutex-guarded in-memory state of an `ImageCache`. -/
structure CacheState where
  refs     : String → Option Int
  lastUsed : String → Option Int

/-- The cache with no bookkeeping recorded (`NewImageCache`). -/
def emptyCache : CacheState := ⟨fun _ => none, fun _ => none⟩

/-- Function `cacheKey` (images.go). -/
def cacheKey (schematicID talosVersion : String) : String :=
  schematicID ++ "-" ++ talosVersion ++ ".qcow2.gz"

/-- Cache-internal actions of one `Acquire` call, in execution order.
`statOrDownload` is the body handed to `singleflight.Do`: the
file-existence check followed, if needed, by the download — the only
I/O the call performs. -/
inductive CacheAct where
  | incrRef (k : String)
  | statOrDownload (k : String)
  | decrRef (k : String)
deriving DecidableEq, Repr

/-- Method `ImageCache.Acquire`: take the refcount increment under the mutex,
then run the stat-or-download body through `singleflight`; on an I/O
failure (`ioErr = some m`) roll the increment back (deleting the entry
when it drops to ≤ 0) and return the error.  `lastUsed` is not touched
by `Acquire`.  Returns the new state, the result (the cache file path
on success), and the ordered action trace. -/
def acquire (st : CacheState) (cachePath schematicID talosVersion : String)
    (ioErr : Option String) : CacheState × Except String String × List CacheAct :=
  let key := cacheKey schematicID talosVersion
  let st1 : CacheState := { st with refs := refsIncr st.refs key }
  match ioErr with
  | none =>
    (st1, .ok (cachePath ++ "/" ++ key), [.incrRef key, .statOrDownload key])
  | some m =>
    ({ st1 with refs := refsDecrDel st1.refs key }, .error m,
     [.incrRef key, .statOrDownload key, .decrRef key])

/-- Method `ImageCache.Release`: decrement the refcount; when it reaches zero
(or below) delete the entry and stamp `lastUsed[key] = now`. -/
def release (st : CacheState) (schematicID talosVersion : String) (now : Int) :
    CacheState :=
  let key := cacheKey schematicID talosVersion
  if refsGet st.refs key - 1 ≤ 0 then
    { refs := refsDecrDel st.refs key,
      lastUsed := fun k' => if k' = key then some now else st.lastUsed k' }
  else { st with refs := refsDecrDel st.refs key }

/-- One iteration of the `ImageCache.cleanup` sweep over a cache-directory
entry `key`: skip while the refcount is positive; with no recorded idle
timestamp record `now` and defer; otherwise remove the file once the
idle duration reaches `maxAge` (the `os.Remove` is modelled as
succeeding — on failure the code only logs and skips the bookkeeping).
The accumulator carries the evolving state and the names removed so
far. -/
def cleanupFile (now maxAge : Int) (acc : CacheState × List String) (key : String) :
    CacheState × List String :=
  let (st, deleted) := acc
  if 0 < refsGet st.refs key then (st, deleted)
  else
    match st.lastUsed key with
    | none =>
      ({ st with lastUsed := fun k' => if k' = key then some now else st.lastUsed k' },
       deleted)
    | some t =>
      if now - t < maxAge then (st, deleted)
      else
        ({ st with lastUsed := fun k' => if k' = key then none else st.lastUsed k' },
         deleted ++ [key])

/-- Method `ImageCache.cleanup`: one sweep over the (regular) files of the
cache directory, entirely under the mutex.  Returns the state after the
sweep and the list of files removed by it. -/
def cleanup (st : CacheState) (files : List String) (now maxAge : Int) :
    CacheState × List String :=
  files.foldl (cleanupFile now maxAge) (st, [])

/-- Per-key decision of one sweep, as a function of the pre-sweep state
only: whether the key's file is removed, and the key's `lastUsed` entry
afterwards.  (Characterization target for `cleanup`: refcounts never
change during a sweep and each key's timestamp is only touched when
that key is processed.) -/
def sweepKeyResult (st : CacheState) (now maxAge : Int) (key : String) :
    Bool × Option Int :=
  if 0 < refsGet st.refs key then (false, st.lastUsed key)
  else
    match st.lastUsed key with
    | none => (false, some now)
    | some t => if now - t < maxAge then (false, some t) else (true, none)

/-- Events against one `ImageCache` whose refcount bookkeeping the
invariants quantify over: a successful `Acquire`, a failed `Acquire`
(increment plus rollback), and a `Release` at time `now`. -/
inductive CacheEvent where
  | acquireOk (schematicID talosVersion : String)
  | acquireFail (schematicID talosVersion : String)
  | releaseAt (schematicID talosVersion : String) (now : Int)
deriving DecidableEq, Repr

/-- State transition of one cache event. -/
def applyEvent (st : CacheState) : CacheEvent → CacheState
  | .acquireOk sid ver => (acquire st "" sid ver none).1
  | .acquireFail sid ver => (acquire st "" sid ver (some "download failed")).1
  | .releaseAt sid ver now => release st sid ver now

/-- Every refcount entry actually present in the map is strictly
positive. -/
def RefsPos (r : String → Option Int) : Prop :=
  ∀ k v, r k = some v → 0 < v

/-! ## Deprovisioning (`Deprovision`, `removeDomain`, `removeVol*`) -/

/-- Hypervisor responses consumed by the domain-removal phase:
`DomainLookupByName`, `DomainGetState`, the observed state code, and
the `DomainDestroy` / `DomainUndefine` results (`none` = success). -/
structure DomainWorld where
  lookup      : LookupRes
  getStateOk  : Bool
  domState    : Nat
  destroyErr  : Option String
  undefineErr : Option String
deriving DecidableEq, Repr

/-- Function `removeDomain`: look the domain up by name (a `"Domain not found"`
failure means it is already gone and the phase succeeds), fetch its
state and act on it: running → destroy then retry in 3s (destroy
failure is returned as a plain wrapped error); shutting-down → retry in
10s; shut-off → undefine; any other state → retryable unknown-state
error. -/
def removeDomain (w : DomainWorld) (vmName : String) : StepOutcome × List HvOp :=
  match w.lookup with
  | .errMsg m =>
    if stringContains m "Domain not found" then (.ok, [])
    else (.err ("fetching domain: " ++ m), [])
  | .found =>
    if ¬ w.getStateOk then (.err "fetching domain state", [])
    else if w.domState = domainRunning then
      match w.destroyErr with
      | some m => (.err ("destroy domain: " ++ m), [.domDestroy vmName])
      | none => (.retryInterval 3, [.domDestroy vmName])
    else if w.domState = domainShuttingDown then (.retryInterval 10, [])
    else if w.domState = domainShutoff then
      match w.undefineErr with
      | some m => (.err ("undefine VM: " ++ m), [.domUndefine vmName])
      | none => (.ok, [.domUndefine vmName])
    else (.retryError 10 "unknown VM state", [])

/-- Hypervisor responses consumed by the volume-cleanup phase: the pool
lookup, the per-volume-name lookup, and the per-volume-name
`StorageVolDelete` result (`none` = success). -/
structure VolumeWorld where
  poolRes   : LookupRes
  volRes    : String → LookupRes
  deleteErr : String → Option String

/-- Function `removeVolMain`: delete the primary volume by its recorded name;
`errVolNoExist` means already clean, any other lookup error or a
deletion failure aborts the pass. -/
def removeVolMain (w : VolumeWorld) (volName : String) : StepOutcome × List HvOp :=
  match getVol w.poolRes (w.volRes volName) with
  | .volNoExist => (.ok, [.volLookup volName])
  | .err m => (.err ("error fetching volume: " ++ m), [.volLookup volName])
  | .handle =>
    match w.deleteErr volName with
    | some m => (.err ("error deleting volume: " ++ m), [.volLookup volName, .volDelete volName])
    | none => (.ok, [.volLookup volName, .volDelete volName])

/-- Function `removeVolAdditionalDisks`: delete each recorded additional-disk
volume in order, treating `errVolNoExist` as already clean and aborting
on a genuine failure. -/
def removeVolAdditionalDisks (w : VolumeWorld) : List AdditionalDisk → StepOutcome × List HvOp
  | [] => (.ok, [])
  | d :: rest =>
    match getVol w.poolRes (w.volRes d.volName) with
    | .volNoExist =>
      let (out, tr) := removeVolAdditionalDisks w rest
      (out, .volLookup d.volName :: tr)
    | .err m => (.err ("fetching volume " ++ d.volName ++ ": " ++ m), [.volLookup d.volName])
    | .handle =>
      match w.deleteErr d.volName with
      | some m =>
        (.err ("error deleting volume: " ++ m), [.volLookup d.volName, .volDelete d.volName])
      | none =>
        let (out, tr) := removeVolAdditionalDisks w rest
        (out, .volLookup d.volName :: .volDelete d.volName :: tr)

/-- Function `removeVolCidata`: delete the bootstrap-ISO volume when a name is
recorded; an empty recorded name is a no-op. -/
def removeVolCidata (w : VolumeWorld) (cidataVolName : String) : StepOutcome × List HvOp :=
  if cidataVolName = "" then (.ok, [])
  else
    match getVol w.poolRes (w.volRes cidataVolName) with
    | .volNoExist => (.ok, [.volLookup cidataVolName])
    | .err m => (.err ("fetching cidata volume " ++ cidataVolName ++ ": " ++ m),
                 [.volLookup cidataVolName])
    | .handle =>
      match w.deleteErr cidataVolName with
      | some m => (.err ("error deleting cidata volume: " ++ m),
                   [.volLookup cidataVolName, .volDelete cidataVolName])
      | none => (.ok, [.volLookup cidataVolName, .volDelete cidataVolName])

/-- Method `Deprovision`: retry on an empty machine-request id; run the
domain-removal phase and stop on any non-nil outcome; then require the
persisted pool and primary-volume names to be non-empty before entering
the volume-cleanup phase; finally remove the primary, additional-disk
and cidata volumes in order, stopping at the first failure. -/
def deprovision (dw : DomainWorld) (vw : VolumeWorld) (st : MachineState)
    (vmName : String) : StepOutcome × List HvOp :=
  if vmName = "" then (.retryError 10 "empty vmName", [])
  else
    match removeDomain dw vmName with
    | (.ok, tr0) =>
      if st.poolName = "" ∨ st.vmVolName = "" then
        (.err ("empty pool/vol names: " ++ st.poolName ++ "/" ++ st.vmVolName), tr0)
      else
        match removeVolMain vw st.vmVolName with
        | (.ok, tr1) =>
          match removeVolAdditionalDisks vw st.additionalDisks with
          | (.ok, tr2) =>
            let (out, tr3) := removeVolCidata vw st.cidataVolName
            (out, tr0 ++ tr1 ++ tr2 ++ tr3)
          | (out, tr2) => (out, tr0 ++ tr1 ++ tr2)
        | (out, tr1) => (out, tr0 ++ tr1)
    | (out, tr0) => (out, tr0)

/-! ## Concrete inputs used by counterexamples and witnesses -/

/-- An additional disk of type `"sata"`. -/
def sataDisk : AdditionalDisk := ⟨"sata", "vol"⟩

/-- A machine state in which every field `provisionPrimaryDisk` produces
is already set (the step has completed in an earlier pass). -/
def completedState : MachineState :=
  { uuid := "u", schematicId := "s", poolName := "pool0",
    vmVolName := "m1.qcow2", vmName := "m1" }

/-- A machine state before any provisioning pass. -/
def freshState : MachineState := {}

/-- Concrete `createVolume` responses when the volume already exists. -/
def reuseVolEnv : VolCreateEnv := ⟨.found, .found, .found, true⟩

/-- Concrete `createVolume` responses when the volume does not exist yet and is
created successfully. -/
def freshVolEnv : VolCreateEnv :=
  ⟨.found, .errMsg "Storage volume not found", .found, true⟩

/-- A sample machine request configuration. -/
def dataEx : Data := { cores := 2, memory := 2048, diskSize := 8, storagePool := "pool0" }

/-- Concrete `provisionPrimaryDisk` responses with every external call
succeeding and the volume already present. -/
def allOkPrimaryEnv : PrimaryDiskEnv :=
  { dataOk := true, acquireOk := true, createVol := reuseVolEnv,
    openOk := true, gzipOk := true, uploadOk := true, resizeOk := true }

/-- Concrete `provisionPrimaryDisk` responses with every external call
succeeding on a first pass (volume absent, then created). -/
def freshPrimaryEnv : PrimaryDiskEnv :=
  { allOkPrimaryEnv with createVol := freshVolEnv }

/-- Concrete `startVM` responses when the domain is already running. -/
def runningStartEnv : StartVMEnv := ⟨true, true, domainRunning, none⟩

/-- Domain-removal responses: the domain is running and the
`DomainDestroy` call fails. -/
def destroyFailWorld : DomainWorld :=
  ⟨.found, true, domainRunning, some "operation failed", none⟩

/-- Domain-removal responses: the domain is running and the
`DomainDestroy` call succeeds. -/
def destroyOkWorld : DomainWorld := ⟨.found, true, domainRunning, none, none⟩

/-- Domain-removal responses: the domain is already absent. -/
def absentDomainWorld : DomainWorld :=
  ⟨.errMsg "Domain not found", true, 0, none, none⟩

/-- Volume-phase responses with every lookup finding the volume and
every deletion succeeding. -/
def cleanVolWorld : VolumeWorld := ⟨.found, fun _ => .found, fun _ => none⟩

/-- A persisted machine state with an empty storage-pool name. -/
def emptyPoolState : MachineState := { vmVolName := "m1.qcow2", vmName := "m1" }

/-- A cache state holding one image whose refcount is 2. -/
def cacheStInUse : CacheState :=
  ⟨fun k => if k = "s1-v1.qcow2.gz" then some 2 else none, fun _ => none⟩

/-- A cache state holding no refcounts and one file with no recorded
idle timestamp. -/
def cacheStNoMeta : CacheState := emptyCache

/-! # Theorems -/

/-! ## C1 — sata disk slot assignment -/

/-- Characterization of the additional-disk loop on an all-`"sata"`
list: the `k`-th disk (0-based `i`) is assigned the device slot derived
from the running counter value `sata + i` via the base-26 letter
encoding, on the virtio bus. -/
theorem assignDiskSlots_all_sata (ds : List AdditionalDisk) (sata nvme : Nat)
    (h : ∀ d ∈ ds, d.type = "sata") :
    assignDiskSlots sata nvme ds =
      .ok ((List.range ds.length).map fun i => (sataSlot (sata + i), "virtio")) := by
  induction ds generalizing sata with
  | nil => simp [assignDiskSlots]
  | cons d rest ih =>
    have hd : d.type = "sata" := h d (List.mem_cons_self _ _)
    have hrest : ∀ x ∈ rest, x.type = "sata" := fun x hx => h x (List.mem_cons_of_mem _ hx)
    have hne : ¬ d.type = "nvme" := by rw [hd]; decide
    rw [assignDiskSlots, if_neg hne, if_pos hd, ih (sata + 1) hrest]
    simp only [Except.map, List.length_cons, List.range_succ_eq_map, List.map_cons,
      List.map_map, Nat.add_zero]
    have harg : ((fun i => (sataSlot (sata + i), ("virtio" : String))) ∘ Nat.succ)
        = fun i => (sataSlot (sata + 1 + i), "virtio") := by
      funext i
      simp only [Function.comp_apply]
      have : sata + Nat.succ i = sata + 1 + i := by omega
      rw [this]
    rw [harg]

/-- C1 counterexample: with the sata counter seeded to 1, the 26th
additional sata disk (0-based index 25, counter value 26) receives the
device slot `"sdaa"` — a TWO-letter suffix after the `"sd"` bus prefix —
not a single-letter slot as the claim states (the last single-letter
slot `"sdz"` goes to the 25th disk). -/
theorem c1_counterexample :
    assignDiskSlots 1 0 (List.replicate 26 sataDisk) =
      .ok ((List.range 26).map fun i => (sataSlot (1 + i), "virtio"))
  ∧ sataSlot (1 + 25) = "sdaa"
  ∧ "sdaa".length = 4 := by
  refine ⟨?_, ?_, by decide⟩
  · simpa using assignDiskSlots_all_sata (List.replicate 26 sataDisk) 1 0 (by decide)
  · simp [sataSlot, sataSlotAux]; decide

/-- C1 (amended): with the sata slot counter seeded to 1, the `k`-th
additional sata disk receives the slot obtained by the base-26 letter
encoding of counter value `k` appended to the `"sd"` prefix: the first
gets `"sdb"` (immediately after the primary disk's reserved slot), the
25th gets the final single-letter slot `"sdz"`, and the 26th and 27th
get the two-letter slots `"sdaa"` and `"sdab"`. -/
theorem c1_sata_slot_assignment (ds : List AdditionalDisk)
    (h : ∀ d ∈ ds, d.type = "sata") :
    assignDiskSlots 1 0 ds =
      .ok ((List.range ds.length).map fun i => (sataSlot (1 + i), "virtio"))
  ∧ sataSlot 1 = "sdb"
  ∧ sataSlot 25 = "sdz"
  ∧ sataSlot 26 = "sdaa"
  ∧ sataSlot 27 = "sdab" := by
  refine ⟨assignDiskSlots_all_sata ds 1 0 h, ?_, ?_, ?_, ?_⟩ <;>
    (simp [sataSlot, sataSlotAux]; decide)

/-- C1 witness: the amended slot-assignment theorem applied to a
concrete list of 27 sata disks. -/
theorem c1_sata_slot_assignment_witness :
    assignDiskSlots 1 0 (List.replicate 27 sataDisk) =
      .ok ((List.range (List.replicate 27 sataDisk).length).map
        fun i => (sataSlot (1 + i), "virtio"))
  ∧ sataSlot 1 = "sdb"
  ∧ sataSlot 25 = "sdz"
  ∧ sataSlot 26 = "sdaa"
  ∧ sataSlot 27 = "sdab" :=
  c1_sata_slot_assignment (List.replicate 27 sataDisk) (by decide)

/-! ## C2 — step re-run behaviour -/

/-- C2 counterexample: re-running `provisionPrimaryDisk` against a
machine state that already reflects its completion (pool and volume
names persisted, volume present on the hypervisor, every external call
succeeding) reports success but STILL issues the `StorageVolUpload` and
`StorageVolResize` mutations — not zero hypervisor mutations as the
claim states. -/
theorem c2_counterexample :
    (provisionPrimaryDisk allOkPrimaryEnv dataEx "m1" completedState).1 = .ok
  ∧ HvOp.volUpload "m1.qcow2" ∈
      (provisionPrimaryDisk allOkPrimaryEnv dataEx "m1" completedState).2.2
  ∧ HvOp.volResize "m1.qcow2" (8 * GiB) ∈
      (provisionPrimaryDisk allOkPrimaryEnv dataEx "m1" completedState).2.2 := by
  refine ⟨?_, ?_, ?_⟩ <;> decide

/-- C2 (amended): re-running `startVM` against a domain already
reported running performs zero hypervisor mutations and reports
success; re-running `provisionPrimaryDisk` against a completed state
reports success and issues no volume-create call (the get-or-create
probe finds the volume), but re-performs the image upload and the
volume resize on every pass. -/
theorem c2_rerun_behaviour :
    (∀ (env : StartVMEnv) (st : MachineState),
      env.lookupOk = true → env.getStateOk = true → env.domState = domainRunning →
      startVM env st = (.ok, st, []))
  ∧ (∀ (env : PrimaryDiskEnv) (data : Data) (rid : String) (st : MachineState),
      env.dataOk = true → env.acquireOk = true →
      getVol env.createVol.getPoolRes env.createVol.getVolRes = .handle →
      env.openOk = true → env.gzipOk = true → env.uploadOk = true → env.resizeOk = true →
      provisionPrimaryDisk env data rid st =
        (.ok, { st with poolName := data.storagePool, vmVolName := rid ++ ".qcow2" },
         [.volLookup (rid ++ ".qcow2"), .volUpload (rid ++ ".qcow2"),
          .volResize (rid ++ ".qcow2") (data.diskSize * GiB)])) := by
  constructor
  · intro env st hl hg hs
    simp [startVM, hl, hg, hs]
  · intro env data rid st hd ha hvol ho hg hu hr
    simp [provisionPrimaryDisk, createVolume, hd, ha, hvol, ho, hg, hu, hr]

/-- C2 witness: the amended re-run theorem applied to a running domain
and to a completed machine state with all calls succeeding. -/
theorem c2_rerun_behaviour_witness :
    startVM runningStartEnv completedState = (.ok, completedState, [])
  ∧ provisionPrimaryDisk allOkPrimaryEnv dataEx "m1" completedState =
      (.ok, { completedState with
                poolName := dataEx.storagePool,
                vmVolName := "m1" ++ ".qcow2" },
       [.volLookup ("m1" ++ ".qcow2"), .volUpload ("m1" ++ ".qcow2"),
        .volResize ("m1" ++ ".qcow2") (dataEx.diskSize * GiB)]) :=
  ⟨c2_rerun_behaviour.1 runningStartEnv completedState rfl rfl rfl,
   c2_rerun_behaviour.2 allOkPrimaryEnv dataEx "m1" completedState
     rfl rfl rfl rfl rfl rfl rfl⟩

/-! ## C3 / C10 — refcount bookkeeping -/

/-- Value of `refsIncr` at the incremented key. -/
theorem refsIncr_self (r : String → Option Int) (k : String) :
    refsIncr r k k = some (refsGet r k + 1) := by
  simp [refsIncr]

/-- Map `refsIncr` leaves every other key untouched. -/
theorem refsIncr_other (r : String → Option Int) (k x : String) (h : ¬ x = k) :
    refsIncr r k x = r x := by
  simp [refsIncr, h]

/-- Value of `refsDecrDel` at the decremented key. -/
theorem refsDecrDel_self (r : String → Option Int) (k : String) :
    refsDecrDel r k k =
      if refsGet r k - 1 ≤ 0 then none else some (refsGet r k - 1) := by
  simp [refsDecrDel]

/-- Map `refsDecrDel` leaves every other key untouched. -/
theorem refsDecrDel_other (r : String → Option Int) (k x : String) (h : ¬ x = k) :
    refsDecrDel r k x = r x := by
  simp [refsDecrDel, h]

/-- Reading the incremented key. -/
theorem refsGet_refsIncr_self (r : String → Option Int) (k : String) :
    refsGet (refsIncr r k) k = refsGet r k + 1 := by
  rw [refsGet, refsIncr_self, Option.getD_some]

/-- Under the positivity invariant every read is non-negative. -/
theorem refsGet_nonneg (r : String → Option Int) (k : String) (h : RefsPos r) :
    0 ≤ refsGet r k := by
  rw [refsGet]
  cases hr : r k with
  | none => simp
  | some w => have := h k w hr; simpa using le_of_lt this

/-- Rolling back a just-taken increment restores the refcount map
exactly, provided every entry present in the map is strictly positive
(the decrement-then-delete never leaves behind a zero entry that the
increment would have resurrected). -/
theorem refsDecrDel_refsIncr (r : String → Option Int) (k : String) (h : RefsPos r) :
    refsDecrDel (refsIncr r k) k = r := by
  funext x
  by_cases hx : x = k
  · subst hx
    rw [refsDecrDel_self, refsGet_refsIncr_self, Int.add_sub_cancel]
    cases hr : r x with
    | none =>
      have hz : refsGet r x = 0 := by rw [refsGet, hr]; rfl
      rw [if_pos (show refsGet r x ≤ 0 by omega)]
    | some v =>
      have hv := h x v hr
      have hg : refsGet r x = v := by rw [refsGet, hr, Option.getD_some]
      rw [if_neg (show ¬ refsGet r x ≤ 0 by omega), hg]
  · rw [refsDecrDel_other _ _ _ hx, refsIncr_other _ _ _ hx]

/-- Incrementing keeps every present entry strictly positive. -/
theorem refsPos_incr (r : String → Option Int) (k : String) (h : RefsPos r) :
    RefsPos (refsIncr r k) := by
  intro x v hv
  by_cases hx : x = k
  · subst hx
    rw [refsIncr_self, Option.some_inj] at hv
    have hge := refsGet_nonneg r x h
    omega
  · rw [refsIncr_other _ _ _ hx] at hv
    exact h x v hv

/-- The decrement-then-delete keeps every present entry strictly
positive. -/
theorem refsPos_decrDel (r : String → Option Int) (k : String) (h : RefsPos r) :
    RefsPos (refsDecrDel r k) := by
  intro x v hv
  by_cases hx : x = k
  · subst hx
    rw [refsDecrDel_self] at hv
    by_cases hle : refsGet r x - 1 ≤ 0
    · rw [if_pos hle] at hv
      cases hv
    · rw [if_neg hle, Option.some_inj] at hv
      omega
  · rw [refsDecrDel_other _ _ _ hx] at hv
    exact h x v hv

/-- C3: a failed `Acquire` takes the refcount increment first — before
the single stat-or-download I/O action, which is attempted exactly once
(no internal retry) — then rolls exactly that increment back and
returns the error, so the refcount map and the idle timestamps after
the failure equal those before the call; a successful `Acquire`
likewise increments before its only I/O action. -/
theorem c3_acquire_increment_rollback (st : CacheState)
    (cachePath sid ver m : String) (hinv : RefsPos st.refs) :
    (acquire st cachePath sid ver (some m)).2.2 =
      [.incrRef (cacheKey sid ver), .statOrDownload (cacheKey sid ver),
       .decrRef (cacheKey sid ver)]
  ∧ (acquire st cachePath sid ver none).2.2 =
      [.incrRef (cacheKey sid ver), .statOrDownload (cacheKey sid ver)]
  ∧ (acquire st cachePath sid ver (some m)).1.refs = st.refs
  ∧ (acquire st cachePath sid ver (some m)).1.lastUsed = st.lastUsed
  ∧ (acquire st cachePath sid ver (some m)).2.1 = .error m := by
  refine ⟨rfl, rfl, ?_, rfl, rfl⟩
  exact refsDecrDel_refsIncr st.refs (cacheKey sid ver) hinv

/-- C3 witness: the rollback theorem applied to the empty cache and a
concrete key. -/
theorem c3_acquire_increment_rollback_witness :
    (acquire emptyCache "/tmp/omni-libvirt-cache" "s1" "v1" (some "boom")).2.2 =
      [.incrRef (cacheKey "s1" "v1"), .statOrDownload (cacheKey "s1" "v1"),
       .decrRef (cacheKey "s1" "v1")]
  ∧ (acquire emptyCache "/tmp/omni-libvirt-cache" "s1" "v1" none).2.2 =
      [.incrRef (cacheKey "s1" "v1"), .statOrDownload (cacheKey "s1" "v1")]
  ∧ (acquire emptyCache "/tmp/omni-libvirt-cache" "s1" "v1" (some "boom")).1.refs =
      emptyCache.refs
  ∧ (acquire emptyCache "/tmp/omni-libvirt-cache" "s1" "v1" (some "boom")).1.lastUsed =
      emptyCache.lastUsed
  ∧ (acquire emptyCache "/tmp/omni-libvirt-cache" "s1" "v1" (some "boom")).2.1 =
      .error "boom" :=
  c3_acquire_increment_rollback emptyCache "/tmp/omni-libvirt-cache" "s1" "v1" "boom"
    (fun k v hv => by simp [emptyCache] at hv)

/-- C10: starting from a map whose entries are all strictly positive,
any sequence of successful acquires, failed acquires (increment plus
rollback) and releases — including a release with no matching acquire —
leaves every entry still strictly positive: no zero or negative
refcount ever persists. -/
theorem c10_refcounts_strictly_positive (evs : List CacheEvent) (st : CacheState)
    (hinv : RefsPos st.refs) :
    RefsPos (evs.foldl applyEvent st).refs := by
  induction evs generalizing st with
  | nil => exact hinv
  | cons e rest ih =>
    rw [List.foldl_cons]
    apply ih
    cases e with
    | acquireOk sid ver =>
      exact refsPos_incr st.refs (cacheKey sid ver) hinv
    | acquireFail sid ver =>
      exact refsPos_decrDel _ _ (refsPos_incr st.refs (cacheKey sid ver) hinv)
    | releaseAt sid ver now =>
      have hrefs : (release st sid ver now).refs = refsDecrDel st.refs (cacheKey sid ver) := by
        by_cases hc : refsGet st.refs (cacheKey sid ver) - 1 ≤ 0 <;>
          simp [release, hc]
      rw [applyEvent, hrefs]
      exact refsPos_decrDel st.refs (cacheKey sid ver) hinv

/-- C10 witness: the invariant after a concrete event sequence on the
empty cache, containing an unmatched release and a failed acquire. -/
theorem c10_refcounts_strictly_positive_witness :
    RefsPos (([CacheEvent.releaseAt "a" "v" 0, .acquireOk "b" "v", .acquireFail "b" "v",
               .acquireOk "c" "v"].foldl applyEvent emptyCache)).refs :=
  c10_refcounts_strictly_positive _ emptyCache (fun k v hv => by simp [emptyCache] at hv)

/-! ## C4 / C8 — cleanup sweep -/

/-- A sweep iteration never changes the refcount map. -/
theorem cleanupFile_refs (now maxAge : Int) (acc : CacheState × List String) (key : String) :
    (cleanupFile now maxAge acc key).1.refs = acc.1.refs := by
  obtain ⟨st, del⟩ := acc
  simp only [cleanupFile]
  split
  · rfl
  · split
    · rfl
    · split <;> rfl

/-- A sweep iteration either removes nothing or removes exactly its own
key, and it only removes when the key's refcount is not positive. -/
theorem cleanupFile_deleted (now maxAge : Int) (acc : CacheState × List String) (key : String) :
    (cleanupFile now maxAge acc key).2 = acc.2 ∨
    ((cleanupFile now maxAge acc key).2 = acc.2 ++ [key] ∧ ¬ 0 < refsGet acc.1.refs key) := by
  obtain ⟨st, del⟩ := acc
  simp only [cleanupFile]
  split
  · exact Or.inl rfl
  · next h1 =>
    split
    · exact Or.inl rfl
    · split
      · exact Or.inl rfl
      · exact Or.inr ⟨rfl, h1⟩

/-- A sweep iteration leaves the idle timestamp of every other key
untouched. -/
theorem cleanupFile_lastUsed_other (now maxAge : Int) (acc : CacheState × List String)
    (key f : String) (hf : ¬ f = key) :
    (cleanupFile now maxAge acc key).1.lastUsed f = acc.1.lastUsed f := by
  obtain ⟨st, del⟩ := acc
  simp only [cleanupFile]
  split
  · rfl
  · split
    · simp [hf]
    · split
      · rfl
      · simp [hf]

/-- A sweep iteration on key `f` acts on `f`'s bookkeeping exactly as
`sweepKeyResult` of the accumulated state describes. -/
theorem cleanupFile_self (now maxAge : Int) (acc : CacheState × List String) (f : String) :
    (cleanupFile now maxAge acc f).1.lastUsed f = (sweepKeyResult acc.1 now maxAge f).2
  ∧ (cleanupFile now maxAge acc f).2 =
      (if (sweepKeyResult acc.1 now maxAge f).1 then acc.2 ++ [f] else acc.2) := by
  obtain ⟨st, del⟩ := acc
  simp only [cleanupFile, sweepKeyResult]
  by_cases h1 : 0 < refsGet st.refs f
  · simp [h1]
  · simp only [if_neg h1]
    cases hl : st.lastUsed f with
    | none => simp
    | some t =>
      by_cases h2 : now - t < maxAge
      · simp [h2, hl]
      · simp [h2, hl]

/-- Result `sweepKeyResult` only depends on the key's own refcount and
timestamp. -/
theorem sweepKeyResult_congr (st st' : CacheState) (now maxAge : Int) (f : String)
    (hr : st'.refs = st.refs) (hl : st'.lastUsed f = st.lastUsed f) :
    sweepKeyResult st' now maxAge f = sweepKeyResult st now maxAge f := by
  rw [sweepKeyResult, sweepKeyResult, hr, hl]

/-- Folding the sweep over files not containing `f` leaves `f`'s idle
timestamp and deletion status untouched. -/
theorem foldl_cleanup_untouched (now maxAge : Int) (rest : List String) (f : String)
    (hf : ¬ f ∈ rest) (acc : CacheState × List String) :
    (rest.foldl (cleanupFile now maxAge) acc).1.lastUsed f = acc.1.lastUsed f
  ∧ (f ∈ (rest.foldl (cleanupFile now maxAge) acc).2 ↔ f ∈ acc.2) := by
  induction rest generalizing acc with
  | nil => simp
  | cons g rs ih =>
    have hfg : ¬ f = g := fun h => hf (h ▸ List.mem_cons_self g rs)
    have hfrs : ¬ f ∈ rs := fun h => hf (List.mem_cons_of_mem g h)
    rw [List.foldl_cons]
    obtain ⟨ih1, ih2⟩ := ih hfrs (cleanupFile now maxAge acc g)
    refine ⟨?_, ?_⟩
    · rw [ih1, cleanupFile_lastUsed_other now maxAge acc g f hfg]
    · rw [ih2]
      rcases cleanupFile_deleted now maxAge acc g with h | ⟨h, _⟩
      · rw [h]
      · rw [h]
        simp [hfg]

/-- Characterization of one full sweep at any key among the (distinct)
directory entries, with the accumulator generalized: whether the key's
file gets removed and its timestamp afterwards are exactly
`sweepKeyResult` of the pre-sweep state. -/
theorem cleanup_fold_char (now maxAge : Int) (st : CacheState) (f : String)
    (files : List String) (hnd : files.Nodup) (hf : f ∈ files) :
    ∀ acc : CacheState × List String,
      acc.1.refs = st.refs → acc.1.lastUsed f = st.lastUsed f → ¬ f ∈ acc.2 →
      ((f ∈ (files.foldl (cleanupFile now maxAge) acc).2 ↔
        (sweepKeyResult st now maxAge f).1 = true)
       ∧ (files.foldl (cleanupFile now maxAge) acc).1.lastUsed f =
          (sweepKeyResult st now maxAge f).2) := by
  induction files with
  | nil => cases hf
  | cons g rs ih =>
    intro acc hrefs hlast hdel
    rw [List.foldl_cons]
    by_cases hfg : f = g
    · subst hfg
      have hfrs : ¬ f ∈ rs := (List.nodup_cons.mp hnd).1
      obtain ⟨hu1, hu2⟩ :=
        foldl_cleanup_untouched now maxAge rs f hfrs (cleanupFile now maxAge acc f)
      obtain ⟨hs1, hs2⟩ := cleanupFile_self now maxAge acc f
      have hsw : sweepKeyResult acc.1 now maxAge f = sweepKeyResult st now maxAge f :=
        sweepKeyResult_congr st acc.1 now maxAge f hrefs hlast
      constructor
      · rw [hu2, hs2, hsw]
        by_cases hflag : (sweepKeyResult st now maxAge f).1 = true
        · simp [hflag]
        · simp only [Bool.not_eq_true] at hflag
          simp [hflag, hdel]
      · rw [hu1, hs1, hsw]
    · have hfrs : f ∈ rs := (List.mem_cons.mp hf).resolve_left hfg
      apply ih (List.nodup_cons.mp hnd).2 hfrs
      · rw [cleanupFile_refs]
        exact hrefs
      · rw [cleanupFile_lastUsed_other now maxAge acc g f hfg]
        exact hlast
      · rcases cleanupFile_deleted now maxAge acc g with h | ⟨h, _⟩
        · rw [h]
          exact hdel
        · rw [h]
          simp [hfg, hdel]

/-- One-sweep characterization at the initial accumulator. -/
theorem cleanup_char (st : CacheState) (files : List String) (now maxAge : Int)
    (hnd : files.Nodup) (f : String) (hf : f ∈ files) :
    (f ∈ (cleanup st files now maxAge).2 ↔ (sweepKeyResult st now maxAge f).1 = true)
  ∧ (cleanup st files now maxAge).1.lastUsed f = (sweepKeyResult st now maxAge f).2 :=
  cleanup_fold_char now maxAge st f files hnd hf (st, []) rfl rfl (by simp)

/-- C4: a single cleanup sweep never removes a file whose key has a
positive refcount at the time of the sweep (the whole sweep holds the
mutex, so the refcounts are fixed for its duration), regardless of the
file's age or idle timestamp. -/
theorem c4_sweep_never_deletes_referenced (st : CacheState) (files : List String)
    (now maxAge : Int) (f : String) (hpos : 0 < refsGet st.refs f) :
    ¬ f ∈ (cleanup st files now maxAge).2 := by
  rw [cleanup]
  suffices h : ∀ acc : CacheState × List String, acc.1.refs = st.refs → ¬ f ∈ acc.2 →
      ¬ f ∈ (files.foldl (cleanupFile now maxAge) acc).2 by
    exact h (st, []) rfl (by simp)
  induction files with
  | nil =>
    intro acc _ hdel
    simpa using hdel
  | cons g rs ih =>
    intro acc hrefs hdel
    rw [List.foldl_cons]
    apply ih
    · rw [cleanupFile_refs]
      exact hrefs
    · rcases cleanupFile_deleted now maxAge acc g with h | ⟨h, hneg⟩
      · rw [h]
        exact hdel
      · rw [h]
        intro hmem
        rcases List.mem_append.mp hmem with hmem | hmem
        · exact hdel hmem
        · have hfg : f = g := by simpa using hmem
          subst hfg
          rw [hrefs] at hneg
          exact hneg hpos

/-- C4 witness: the in-use file survives a sweep with `maxAge = 0`. -/
theorem c4_sweep_never_deletes_referenced_witness :
    ¬ "s1-v1.qcow2.gz" ∈ (cleanup cacheStInUse ["s1-v1.qcow2.gz"] 0 0).2 :=
  c4_sweep_never_deletes_referenced cacheStInUse ["s1-v1.qcow2.gz"] 0 0
    "s1-v1.qcow2.gz" (by decide)

/-- C8: a file whose key has no positive refcount and no recorded idle
timestamp is not removed by the sweep; instead the sweep records `now`
as the key's idle timestamp, and a later sweep (whatever the refcounts
then are) removes the file only once the recorded idle duration has
reached the configured maximum age. -/
theorem c8_unknown_age_deferred (st : CacheState) (files : List String)
    (now maxAge : Int) (f : String) (refs2 : String → Option Int) (now2 : Int)
    (hnd : files.Nodup) (hf : f ∈ files)
    (hr : ¬ 0 < refsGet st.refs f) (hl : st.lastUsed f = none) :
    ¬ f ∈ (cleanup st files now maxAge).2
  ∧ (cleanup st files now maxAge).1.lastUsed f = some now
  ∧ (f ∈ (cleanup ⟨refs2, (cleanup st files now maxAge).1.lastUsed⟩ files now2 maxAge).2 →
      maxAge ≤ now2 - now) := by
  have hsw : sweepKeyResult st now maxAge f = (false, some now) := by
    rw [sweepKeyResult, if_neg hr, hl]
  obtain ⟨hc1, hc2⟩ := cleanup_char st files now maxAge hnd f hf
  refine ⟨?_, ?_, ?_⟩
  · intro hmem
    have hx := hc1.mp hmem
    rw [hsw] at hx
    exact Bool.false_ne_true hx
  · rw [hc2, hsw]
  · intro hmem
    obtain ⟨hd1, _⟩ :=
      cleanup_char ⟨refs2, (cleanup st files now maxAge).1.lastUsed⟩ files now2 maxAge hnd f hf
    have hflag := hd1.mp hmem
    have hlu2 : (cleanup st files now maxAge).1.lastUsed f = some now := by
      rw [hc2, hsw]
    simp only [sweepKeyResult, hlu2] at hflag
    by_cases hp : 0 < refsGet refs2 f
    · rw [if_pos hp] at hflag
      exact absurd hflag (by simp)
    · rw [if_neg hp] at hflag
      by_cases h2 : now2 - now < maxAge
      · rw [if_pos h2] at hflag
        exact absurd hflag (by simp)
      · omega

/-- C8 witness: the unknown-age deferral theorem at a concrete one-file
cache directory, with a second sweep inside the age window. -/
theorem c8_unknown_age_deferred_witness :
    ¬ "k1.qcow2.gz" ∈ (cleanup cacheStNoMeta ["k1.qcow2.gz"] 0 5).2
  ∧ (cleanup cacheStNoMeta ["k1.qcow2.gz"] 0 5).1.lastUsed "k1.qcow2.gz" = some 0
  ∧ ("k1.qcow2.gz" ∈
      (cleanup ⟨fun _ => none, (cleanup cacheStNoMeta ["k1.qcow2.gz"] 0 5).1.lastUsed⟩
        ["k1.qcow2.gz"] 2 5).2 →
      (5 : Int) ≤ 2 - 0) :=
  c8_unknown_age_deferred cacheStNoMeta ["k1.qcow2.gz"] 0 5 "k1.qcow2.gz"
    (fun _ => none) 2 (by decide) (by decide) (by decide) rfl

/-! ## C5 — stop outcome on a running domain -/

/-- C5 counterexample: with the domain running and the `DomainDestroy`
call failing, `removeDomain` issues the stop but returns a plain
wrapped error — NOT a retry outcome — contradicting "regardless of
whether that stop call itself succeeds or fails, reports a
retry-soon outcome". -/
theorem c5_counterexample :
    (removeDomain destroyFailWorld "m1").2 = [.domDestroy "m1"]
  ∧ (removeDomain destroyFailWorld "m1").1 = .err "destroy domain: operation failed"
  ∧ StepOutcome.isRetry (removeDomain destroyFailWorld "m1").1 = false := by
  refine ⟨?_, ?_, ?_⟩ <;> decide

/-- C5 (amended): when Deprovision observes the domain running it
issues the stop (destroy) call; when that call succeeds it reports the
retry-soon outcome (3s interval), but when the call fails it returns
the wrapped `destroy domain` error instead. -/
theorem c5_running_stop_outcome (w : DomainWorld) (vmName : String)
    (hlk : w.lookup = .found) (hgs : w.getStateOk = true)
    (hrun : w.domState = domainRunning) :
    (removeDomain w vmName).2 = [.domDestroy vmName]
  ∧ (removeDomain w vmName).1 =
      (match w.destroyErr with
       | none => .retryInterval 3
       | some m => .err ("destroy domain: " ++ m)) := by
  cases hd : w.destroyErr with
  | none => simp [removeDomain, hlk, hgs, hrun, hd]
  | some m => simp [removeDomain, hlk, hgs, hrun, hd]

/-- C5 witness: the amended stop-outcome theorem applied to a running
domain whose destroy call succeeds. -/
theorem c5_running_stop_outcome_witness :
    (removeDomain destroyOkWorld "m1").2 = [.domDestroy "m1"]
  ∧ (removeDomain destroyOkWorld "m1").1 =
      (match destroyOkWorld.destroyErr with
       | none => .retryInterval 3
       | some m => .err ("destroy domain: " ++ m)) :=
  c5_running_stop_outcome destroyOkWorld "m1" rfl rfl rfl

/-! ## C6 — primary disk capacities -/

/-- C6 counterexample: on a fresh primary-disk provisioning pass with
requested disk size 8, the volume is created with byte capacity 8 (the
raw GB count) while the resize targets `8 * GiB` bytes — the two
capacities do not denote the same size. -/
theorem c6_counterexample :
    (provisionPrimaryDisk freshPrimaryEnv dataEx "m1" freshState).2.2 =
      [.volLookup "m1.qcow2", .volCreate "pool0" "m1.qcow2" 8,
       .volUpload "m1.qcow2", .volResize "m1.qcow2" (8 * GiB)]
  ∧ (provisionPrimaryDisk freshPrimaryEnv dataEx "m1" freshState).1 = .ok
  ∧ ¬ (8 : Nat) = 8 * GiB := by
  refine ⟨?_, ?_, ?_⟩ <;> decide

/-- C6 (amended): on a fresh pass the step creates the volume with byte
capacity equal to the raw requested disk-size number `D`, uploads the
image, then resizes to `D * 2^30` bytes: creation and resize receive
different capacities (off by the GiB factor) whenever `D > 0`. -/
theorem c6_primary_disk_capacities (env : PrimaryDiskEnv) (data : Data) (rid : String)
    (st : MachineState)
    (hd : env.dataOk = true) (ha : env.acquireOk = true)
    (hnx : getVol env.createVol.getPoolRes env.createVol.getVolRes = .volNoExist)
    (hp2 : env.createVol.poolRes2 = .found) (hc : env.createVol.createOk = true)
    (ho : env.openOk = true) (hg : env.gzipOk = true)
    (hu : env.uploadOk = true) (hr : env.resizeOk = true)
    (hpos : 0 < data.diskSize) :
    provisionPrimaryDisk env data rid st =
      (.ok, { st with poolName := data.storagePool, vmVolName := rid ++ ".qcow2" },
       [.volLookup (rid ++ ".qcow2"),
        .volCreate data.storagePool (rid ++ ".qcow2") data.diskSize,
        .volUpload (rid ++ ".qcow2"),
        .volResize (rid ++ ".qcow2") (data.diskSize * GiB)])
  ∧ ¬ data.diskSize = data.diskSize * GiB := by
  constructor
  · simp [provisionPrimaryDisk, createVolume, hd, ha, hnx, hp2, hc, ho, hg, hu, hr]
  · simp only [GiB]
    omega

/-- C6 witness: the capacity theorem applied to a fresh pass with
requested disk size 8. -/
theorem c6_primary_disk_capacities_witness :
    provisionPrimaryDisk freshPrimaryEnv dataEx "m1" freshState =
      (.ok, { freshState with
                poolName := dataEx.storagePool,
                vmVolName := "m1" ++ ".qcow2" },
       [.volLookup ("m1" ++ ".qcow2"),
        .volCreate dataEx.storagePool ("m1" ++ ".qcow2") dataEx.diskSize,
        .volUpload ("m1" ++ ".qcow2"),
        .volResize ("m1" ++ ".qcow2") (dataEx.diskSize * GiB)])
  ∧ ¬ dataEx.diskSize = dataEx.diskSize * GiB :=
  c6_primary_disk_capacities freshPrimaryEnv dataEx "m1" freshState
    rfl rfl (by decide) rfl rfl rfl rfl rfl rfl (by decide)

/-! ## C7 — getVol error classification -/

/-- C7 counterexample: when the pool lookup fails with an unrelated
error, `getVol` surfaces that error (wrapped with `"getvol: "`) — it
returns neither a handle nor the distinguished `errVolNoExist`. -/
theorem c7_counterexample :
    getVol (.errMsg "connection reset by peer") .found =
      .err ("getvol: " ++ "connection reset by peer")
  ∧ ¬ getVol (.errMsg "connection reset by peer") .found = .handle
  ∧ ¬ getVol (.errMsg "connection reset by peer") .found = .volNoExist := by
  refine ⟨rfl, ?_, ?_⟩ <;> decide

/-- C7 (amended): `getVol` returns a handle exactly when both lookups
succeed, the distinguished `errVolNoExist` exactly when the volume
lookup fails with a message containing `"Storage volume not found"`,
that same message otherwise, and surfaces a pool-lookup failure wrapped
with `"getvol: "`. -/
theorem c7_getvol_classification (v : LookupRes) (m : String) :
    getVol .found .found = .handle
  ∧ (getVol .found (.errMsg m) = .volNoExist ↔
      stringContains m "Storage volume not found" = true)
  ∧ (getVol .found (.errMsg m) = .err m ↔
      stringContains m "Storage volume not found" = false)
  ∧ getVol (.errMsg m) v = .err ("getvol: " ++ m) := by
  refine ⟨rfl, ?_, ?_, rfl⟩ <;>
    · rw [getVol]
      by_cases h : stringContains m "Storage volume not found" = true
      · simp [h]
      · simp only [Bool.not_eq_true] at h
        simp [h]

/-- C7 witness: the classification theorem at a pool error and the
canonical not-found message. -/
theorem c7_getvol_classification_witness :
    getVol .found .found = .handle
  ∧ (getVol .found (.errMsg "Storage volume not found") = .volNoExist ↔
      stringContains "Storage volume not found" "Storage volume not found" = true)
  ∧ (getVol .found (.errMsg "Storage volume not found") = .err "Storage volume not found" ↔
      stringContains "Storage volume not found" "Storage volume not found" = false)
  ∧ getVol (.errMsg "Storage volume not found") .found =
      .err ("getvol: " ++ "Storage volume not found") :=
  c7_getvol_classification .found "Storage volume not found"

/-! ## C9 — empty recorded names abort deprovisioning -/

/-- The domain-removal phase performs no volume operations at all. -/
theorem removeDomain_no_volops (w : DomainWorld) (vmName : String) :
    ((removeDomain w vmName).2.filter fun op => op.isVolOp) = [] := by
  unfold removeDomain
  repeat' split
  all_goals rfl

/-- C9: when the domain-removal phase completes successfully (in
particular when the domain is already absent) but the persisted state
has an empty pool name or an empty primary-volume name, Deprovision
returns the `empty pool/vol names` error and its whole trace contains
no volume lookup or deletion. -/
theorem c9_empty_names_abort (dw : DomainWorld) (vw : VolumeWorld) (st : MachineState)
    (vmName : String) (hvm : ¬ vmName = "")
    (hempty : st.poolName = "" ∨ st.vmVolName = "")
    (hok : (removeDomain dw vmName).1 = .ok) :
    (deprovision dw vw st vmName).1 =
      .err ("empty pool/vol names: " ++ st.poolName ++ "/" ++ st.vmVolName)
  ∧ ((deprovision dw vw st vmName).2.filter fun op => op.isVolOp) = [] := by
  have hvol := removeDomain_no_volops dw vmName
  rcases hrd : removeDomain dw vmName with ⟨out, tr⟩
  rw [hrd] at hok hvol
  have hout : out = .ok := hok
  subst hout
  constructor
  · simp only [deprovision, hrd, if_neg hvm, if_pos hempty]
  · simp only [deprovision, hrd, if_neg hvm, if_pos hempty]
    simpa using hvol

/-- C9 witness: the empty-names theorem applied to an absent domain and
a state with an empty pool name. -/
theorem c9_empty_names_abort_witness :
    (deprovision absentDomainWorld cleanVolWorld emptyPoolState "m1").1 =
      .err ("empty pool/vol names: " ++ emptyPoolState.poolName ++ "/" ++
        emptyPoolState.vmVolName)
  ∧ ((deprovision absentDomainWorld cleanVolWorld emptyPoolState "m1").2.filter
      fun op => op.isVolOp) = [] :=
  c9_empty_names_abort absentDomainWorld cleanVolWorld emptyPoolState "m1"
    (by decide) (Or.inl rfl) (by decide)

end LibvirtProvider
